import Mathlib

/-!
Verification of the bizday business-day calculator (main.go).

The program's date handling is done with Go's `time` package.  We embed the
observable semantics of the `time.Time` values this program uses: a time is a
wall-clock reading in the (fixed-offset) local timezone, represented by the
number of seconds since the Unix epoch together with a nanosecond component.
Civil (year, month, day) components are related to day numbers by proleptic
Gregorian calendar arithmetic, exactly as in Go's `time` package: the
conversion from day counts to civil dates proceeds by splitting off 400-year
eras, then centuries, 4-year cycles and years (with Go's `n -= n >> 2`
capping), and the conversion from civil dates to day counts is linear in the
day argument, which is how `time.Date` absorbs out-of-range day values.

Machine integers are modelled as `ℤ` (the quantities involved stay far below
2^63, and Go `int` is 64-bit on all platforms this program targets).
-/

/-- Is `y` a leap year in the proleptic Gregorian calendar (as in Go's
`isLeap`). -/
def isLeap (y : ℤ) : Prop := (y % 4 = 0 ∧ y % 100 ≠ 0) ∨ y % 400 = 0

instance (y : ℤ) : Decidable (isLeap y) := by unfold isLeap; infer_instance

/-- Number of days of month `m` of year `y` (Go `daysIn`). -/
def daysInMonth (y m : ℤ) : ℤ :=
  if m = 2 then (if isLeap y then 29 else 28)
  else if m = 4 ∨ m = 6 ∨ m = 9 ∨ m = 11 then 30
  else 31

/-- Day number (days since 1970-01-01) of the civil date `(y, m, d)`.
Expects `1 ≤ m ≤ 12`; `d` may be arbitrary, out-of-range values denote the
corresponding offset from day 1 of the month, exactly as in Go's
`time.Date`. -/
def daysFromCivil (y m d : ℤ) : ℤ :=
  let y2 : ℤ := if m ≤ 2 then y - 1 else y
  let mp : ℤ := if m ≤ 2 then m + 9 else m - 3
  365 * y2 + y2 / 4 - y2 / 100 + y2 / 400 + (153 * mp + 2) / 5 + d - 1 - 719468

/-- Civil date `(year, month, day)` of day number `z` (days since
1970-01-01), by era / century / 4-year / year splitting as in Go's
`absDate`. -/
def civilFromDays (z : ℤ) : ℤ × ℤ × ℤ :=
  let z2 : ℤ := z + 719468
  let era : ℤ := z2 / 146097
  let doe : ℤ := z2 % 146097
  let n100 : ℤ := doe / 36524 - doe / 36524 / 4
  let d100 : ℤ := doe - 36524 * n100
  let n4 : ℤ := d100 / 1461
  let d4 : ℤ := d100 % 1461
  let n1 : ℤ := d4 / 365 - d4 / 365 / 4
  let doy : ℤ := d4 - 365 * n1
  let yoe : ℤ := 100 * n100 + 4 * n4 + n1
  let y : ℤ := yoe + era * 400
  let mp : ℤ := (5 * doy + 2) / 153
  let d : ℤ := doy - (153 * mp + 2) / 5 + 1
  let m : ℤ := if mp < 10 then mp + 3 else mp - 9
  (if m ≤ 2 then y + 1 else y, m, d)

/-- Reading a civil date back through `daysFromCivil` after resolving the
month branch, for a shifted month index `mp`. -/
theorem daysFromCivil_shift (y mp d : ℤ) (h0 : 0 ≤ mp) (h1 : mp ≤ 11) :
    daysFromCivil (if (if mp < 10 then mp + 3 else mp - 9) ≤ 2 then y + 1 else y)
      (if mp < 10 then mp + 3 else mp - 9) d =
    365 * y + y / 4 - y / 100 + y / 400 + (153 * mp + 2) / 5 + d - 1 - 719468 := by
  simp only [daysFromCivil]
  split_ifs <;> (try simp only [add_sub_cancel_right, sub_add_cancel_right]) <;> omega

/-- Round trip: converting a day number to a civil date and back is the
identity. -/
theorem daysFromCivil_civilFromDays (z : ℤ) :
    daysFromCivil (civilFromDays z).1 (civilFromDays z).2.1 (civilFromDays z).2.2 = z := by
  simp only [civilFromDays]
  generalize hera : (z + 719468) / 146097 = era
  generalize hdoe : (z + 719468) % 146097 = doe
  have hz : z + 719468 = 146097 * era + doe := by rw [← hera, ← hdoe]; omega
  have hdoeb : 0 ≤ doe ∧ doe < 146097 := by rw [← hdoe]; omega
  generalize hq : doe / 36524 = q
  generalize he : q / 4 = e
  have hqb : 0 ≤ q ∧ q ≤ 4 := by omega
  have hd100 : 0 ≤ doe - 36524 * (q - e) ∧ doe - 36524 * (q - e) ≤ 36524 := by omega
  generalize hn4 : (doe - 36524 * (q - e)) / 1461 = n4
  generalize hd4 : (doe - 36524 * (q - e)) % 1461 = d4
  have hn4b : 0 ≤ n4 ∧ n4 ≤ 24 := by omega
  have hd4b : 0 ≤ d4 ∧ d4 ≤ 1460 := by rw [← hd4]; omega
  have hsplit100 : doe - 36524 * (q - e) = 1461 * n4 + d4 := by rw [← hn4, ← hd4]; omega
  generalize hp : d4 / 365 = p
  generalize hf : p / 4 = f
  have hpb : 0 ≤ p ∧ p ≤ 4 := by omega
  have hdoy : 0 ≤ d4 - 365 * (p - f) ∧ d4 - 365 * (p - f) ≤ 365 := by omega
  generalize hmp : (5 * (d4 - 365 * (p - f)) + 2) / 153 = mp
  have hmpb : 0 ≤ mp ∧ mp ≤ 11 := by omega
  rw [daysFromCivil_shift _ _ _ hmpb.1 hmpb.2]
  have hy4 : (100 * (q - e) + 4 * n4 + (p - f) + era * 400) / 4 = era * 100 + 25 * (q - e) + n4 := by
    omega
  have hy100 : (100 * (q - e) + 4 * n4 + (p - f) + era * 400) / 100 = era * 4 + (q - e) := by
    omega
  have hy400 : (100 * (q - e) + 4 * n4 + (p - f) + era * 400) / 400 = era := by omega
  omega

/-- Recovery of the year-of-era and day-of-year from a day-of-era count that
was assembled from them. -/
theorem yoe_recover (R doy0 : ℤ) (hR1 : 0 ≤ R) (hR2 : R ≤ 399)
    (hdoy1 : 0 ≤ doy0) (hdoy2 : doy0 ≤ 365)
    (hleap : doy0 = 365 → (R % 4 = 3 ∧ R % 100 ≠ 99) ∨ R = 399) :
    0 ≤ 365 * R + R / 4 - R / 100 + doy0 ∧
    365 * R + R / 4 - R / 100 + doy0 < 146097 ∧
    100 * ((365 * R + R / 4 - R / 100 + doy0) / 36524 -
        (365 * R + R / 4 - R / 100 + doy0) / 36524 / 4) +
      4 * (((365 * R + R / 4 - R / 100 + doy0) -
          36524 * ((365 * R + R / 4 - R / 100 + doy0) / 36524 -
            (365 * R + R / 4 - R / 100 + doy0) / 36524 / 4)) / 1461) +
      ((((365 * R + R / 4 - R / 100 + doy0) -
          36524 * ((365 * R + R / 4 - R / 100 + doy0) / 36524 -
            (365 * R + R / 4 - R / 100 + doy0) / 36524 / 4)) % 1461) / 365 -
        (((365 * R + R / 4 - R / 100 + doy0) -
          36524 * ((365 * R + R / 4 - R / 100 + doy0) / 36524 -
            (365 * R + R / 4 - R / 100 + doy0) / 36524 / 4)) % 1461) / 365 / 4) = R ∧
    (((365 * R + R / 4 - R / 100 + doy0) -
        36524 * ((365 * R + R / 4 - R / 100 + doy0) / 36524 -
          (365 * R + R / 4 - R / 100 + doy0) / 36524 / 4)) % 1461) -
      365 * ((((365 * R + R / 4 - R / 100 + doy0) -
          36524 * ((365 * R + R / 4 - R / 100 + doy0) / 36524 -
            (365 * R + R / 4 - R / 100 + doy0) / 36524 / 4)) % 1461) / 365 -
        (((365 * R + R / 4 - R / 100 + doy0) -
          36524 * ((365 * R + R / 4 - R / 100 + doy0) / 36524 -
            (365 * R + R / 4 - R / 100 + doy0) / 36524 / 4)) % 1461) / 365 / 4) = doy0 := by
  generalize hE : 365 * R + R / 4 - R / 100 + doy0 = E
  obtain ⟨a, r, ha1, ha2, ha3, ha4⟩ : ∃ a r, R = 100 * a + r ∧ 0 ≤ r ∧ r ≤ 99 ∧ a = R / 100 :=
    ⟨R / 100, R % 100, by omega, by omega, by omega, rfl⟩
  obtain ⟨b, c, hb1, hb2, hb3, hb4⟩ : ∃ b c, r = 4 * b + c ∧ 0 ≤ c ∧ c ≤ 3 ∧ b = r / 4 :=
    ⟨r / 4, r % 4, by omega, by omega, by omega, rfl⟩
  have hab : 0 ≤ a ∧ a ≤ 3 ∧ 0 ≤ b ∧ b ≤ 24 := by omega
  have hEeq : E = 36524 * a + 1461 * b + 365 * c + doy0 := by
    have h4 : R / 4 = 25 * a + b := by omega
    omega
  have ht2 : E / 36524 = a ∨ (E / 36524 = a + 1 ∧ b = 24 ∧ c = 3 ∧ doy0 = 365) := by omega
  rcases ht2 with ht2 | ht2
  · have hq4 : E / 36524 / 4 = 0 := by omega
    have hd100 : E - 36524 * (E / 36524 - E / 36524 / 4) = 1461 * b + 365 * c + doy0 := by omega
    rw [hd100]
    have hn4 : (1461 * b + 365 * c + doy0) / 1461 = b := by omega
    have hd4 : (1461 * b + 365 * c + doy0) % 1461 = 365 * c + doy0 := by omega
    rw [hn4, hd4]
    rcases Classical.em (doy0 = 365) with h365 | h365
    · have hc3 : c = 3 := by
        rcases hleap h365 with ⟨hl1, hl2⟩ | hl
        · omega
        · omega
      subst hc3 h365
      norm_num
      omega
    · have hp : (365 * c + doy0) / 365 = c := by omega
      rw [hp]
      have hf : c / 4 = 0 := by omega
      rw [hf]
      omega
  · obtain ⟨ht2a, hb24, hc3, h365⟩ := ht2
    have hR399 : R = 399 := by
      rcases hleap h365 with ⟨hl1, hl2⟩ | hl
      · omega
      · omega
    have hq4 : E / 36524 / 4 = 1 := by omega
    have hd100 : E - 36524 * (E / 36524 - E / 36524 / 4) = 36524 := by omega
    rw [hd100]
    norm_num
    omega

/-- Recovery of the shifted month index and the day from a day-of-year that
was assembled from them. -/
theorem mp_recover (mp0 d doy0 : ℤ) (h0 : 0 ≤ mp0) (h1 : mp0 ≤ 11) (hd1 : 1 ≤ d)
    (hgap : (mp0 ≤ 10 ∧ d + (153 * mp0 + 2) / 5 ≤ (153 * (mp0 + 1) + 2) / 5) ∨
      (mp0 = 11 ∧ d ≤ 29))
    (hdoy0 : (153 * mp0 + 2) / 5 + d - 1 = doy0) :
    0 ≤ doy0 ∧ doy0 ≤ 365 ∧ (5 * doy0 + 2) / 153 = mp0 ∧
    doy0 - (153 * mp0 + 2) / 5 + 1 = d := by
  omega

/-- Round trip: converting a valid civil date to a day number and back is the
identity. -/
theorem civilFromDays_daysFromCivil (y m d : ℤ) (hm1 : 1 ≤ m) (hm2 : m ≤ 12)
    (hd1 : 1 ≤ d) (hd2 : d ≤ daysInMonth y m) :
    civilFromDays (daysFromCivil y m d) = (y, m, d) := by
  simp only [daysInMonth, isLeap] at hd2
  have hdim : d ≤ 31 ∧ (m = 2 → d ≤ 29) ∧
      (m = 2 → d = 29 → (y % 4 = 0 ∧ y % 100 ≠ 0) ∨ y % 400 = 0) ∧
      ((m = 4 ∨ m = 6 ∨ m = 9 ∨ m = 11) → d ≤ 30) := by
    split_ifs at hd2 <;> omega
  generalize hz : daysFromCivil y m d = z
  simp only [daysFromCivil] at hz
  by_cases hm : m ≤ 2
  · rw [if_pos hm, if_pos hm] at hz
    obtain ⟨Q, R, hQR1, hQR2, hQR3⟩ : ∃ Q R, y - 1 = 400 * Q + R ∧ 0 ≤ R ∧ R ≤ 399 :=
      ⟨(y - 1) / 400, (y - 1) % 400, by omega, by omega, by omega⟩
    obtain ⟨doy0, hdoy0⟩ : ∃ t, (153 * (m + 9) + 2) / 5 + d - 1 = t := ⟨_, rfl⟩
    have hmpr : 0 ≤ doy0 ∧ doy0 ≤ 365 ∧ (5 * doy0 + 2) / 153 = m + 9 ∧
        doy0 - (153 * (m + 9) + 2) / 5 + 1 = d := by
      refine mp_recover (m + 9) d doy0 (by omega) (by omega) hd1 ?_ hdoy0
      omega
    have hleap : doy0 = 365 → (R % 4 = 3 ∧ R % 100 ≠ 99) ∨ R = 399 := by omega
    have hyoe := yoe_recover R doy0 hQR2 hQR3 hmpr.1 hmpr.2.1 hleap
    have hera : (z + 719468) / 146097 = Q := by
      have h4 : (y - 1) / 4 = 100 * Q + R / 4 := by omega
      have h100 : (y - 1) / 100 = 4 * Q + R / 100 := by omega
      have h400 : (y - 1) / 400 = Q := by omega
      omega
    have hdoe : (z + 719468) % 146097 = 365 * R + R / 4 - R / 100 + doy0 := by
      have h4 : (y - 1) / 4 = 100 * Q + R / 4 := by omega
      have h100 : (y - 1) / 100 = 4 * Q + R / 100 := by omega
      have h400 : (y - 1) / 400 = Q := by omega
      omega
    simp only [civilFromDays, Prod.mk.injEq]
    rw [hera, hdoe, hyoe.2.2.2, hyoe.2.2.1, hmpr.2.2.1]
    have hif : ¬ (m + 9 < 10) := by omega
    rw [if_neg hif]
    have hif2 : m + 9 - 9 ≤ 2 := by omega
    rw [if_pos hif2]
    omega
  · rw [if_neg hm, if_neg hm] at hz
    obtain ⟨Q, R, hQR1, hQR2, hQR3⟩ : ∃ Q R, y = 400 * Q + R ∧ 0 ≤ R ∧ R ≤ 399 :=
      ⟨y / 400, y % 400, by omega, by omega, by omega⟩
    obtain ⟨doy0, hdoy0⟩ : ∃ t, (153 * (m - 3) + 2) / 5 + d - 1 = t := ⟨_, rfl⟩
    have hmpr : 0 ≤ doy0 ∧ doy0 ≤ 365 ∧ (5 * doy0 + 2) / 153 = m - 3 ∧
        doy0 - (153 * (m - 3) + 2) / 5 + 1 = d := by
      refine mp_recover (m - 3) d doy0 (by omega) (by omega) hd1 ?_ hdoy0
      have h3 : 3 ≤ m := by omega
      clear hz hdoy0
      interval_cases m <;> omega
    have hleap : doy0 = 365 → (R % 4 = 3 ∧ R % 100 ≠ 99) ∨ R = 399 := by omega
    have hyoe := yoe_recover R doy0 hQR2 hQR3 hmpr.1 hmpr.2.1 hleap
    have hera : (z + 719468) / 146097 = Q := by
      have h4 : y / 4 = 100 * Q + R / 4 := by omega
      have h100 : y / 100 = 4 * Q + R / 100 := by omega
      have h400 : y / 400 = Q := by omega
      omega
    have hdoe : (z + 719468) % 146097 = 365 * R + R / 4 - R / 100 + doy0 := by
      have h4 : y / 4 = 100 * Q + R / 4 := by omega
      have h100 : y / 100 = 4 * Q + R / 100 := by omega
      have h400 : y / 400 = Q := by omega
      omega
    simp only [civilFromDays, Prod.mk.injEq]
    rw [hera, hdoe, hyoe.2.2.2, hyoe.2.2.1, hmpr.2.2.1]
    have hif : m - 3 < 10 := by omega
    rw [if_pos hif]
    have hif2 : ¬ (m - 3 + 3 ≤ 2) := by omega
    rw [if_neg hif2]
    omega

/-- The civil date produced by `civilFromDays` is always a valid calendar
date. -/
theorem civilFromDays_valid (z : ℤ) :
    1 ≤ (civilFromDays z).2.1 ∧ (civilFromDays z).2.1 ≤ 12 ∧
    1 ≤ (civilFromDays z).2.2 ∧
    (civilFromDays z).2.2 ≤ daysInMonth (civilFromDays z).1 (civilFromDays z).2.1 := by
  simp only [civilFromDays]
  generalize hera : (z + 719468) / 146097 = era
  generalize hdoe : (z + 719468) % 146097 = doe
  have hdoeb : 0 ≤ doe ∧ doe < 146097 := by rw [← hdoe]; omega
  generalize hq : doe / 36524 = q
  generalize he : q / 4 = e
  have hqb : 0 ≤ q ∧ q ≤ 4 := by omega
  have hd100 : 0 ≤ doe - 36524 * (q - e) ∧ doe - 36524 * (q - e) ≤ 36524 := by omega
  generalize hn4 : (doe - 36524 * (q - e)) / 1461 = n4
  generalize hd4 : (doe - 36524 * (q - e)) % 1461 = d4
  have hn4b : 0 ≤ n4 ∧ n4 ≤ 24 := by omega
  have hd4b : 0 ≤ d4 ∧ d4 ≤ 1460 := by rw [← hd4]; omega
  have hsplit100 : doe - 36524 * (q - e) = 1461 * n4 + d4 := by rw [← hn4, ← hd4]; omega
  generalize hp : d4 / 365 = p
  generalize hf : p / 4 = f
  have hpb : 0 ≤ p ∧ p ≤ 4 := by omega
  have hdoyb : 0 ≤ d4 - 365 * (p - f) ∧ d4 - 365 * (p - f) ≤ 365 := by omega
  generalize hmp : (5 * (d4 - 365 * (p - f)) + 2) / 153 = mp
  have hmpb : 0 ≤ mp ∧ mp ≤ 11 := by omega
  have h365 : d4 - 365 * (p - f) = 365 → p = 4 ∧ f = 1 ∧ d4 = 1460 := by omega
  have h100 : d4 = 1460 ∧ n4 = 24 → q - e = 3 ∧ e = 1 := by omega
  have h30 : (mp = 1 ∨ mp = 3 ∨ mp = 6 ∨ mp = 8) →
      d4 - 365 * (p - f) - (153 * mp + 2) / 5 + 1 ≤ 30 := by omega
  have h31 : d4 - 365 * (p - f) - (153 * mp + 2) / 5 + 1 ≤ 31 := by omega
  have hdlow : 1 ≤ d4 - 365 * (p - f) - (153 * mp + 2) / 5 + 1 := by omega
  simp only [daysInMonth, isLeap]
  split_ifs <;> omega

/-! ## The time model

A `Time` is a Go `time.Time` as this program observes it: a wall-clock
reading in the process's local timezone (modelled as a fixed-offset zone,
such as the Asia/Tokyo zone of the commented-out test path, so civil-time
order agrees with instant order), given by whole seconds since the Unix epoch
plus a nanosecond component. -/

structure Time where
  sec : ℤ
  nsec : ℤ
  deriving Repr, DecidableEq

/-- Day number (days since 1970-01-01) of the calendar day containing `t`. -/
def Time.days (t : Time) : ℤ := t.sec / 86400

/-- The `(year, month, day)` triple of `t`, as returned by Go's
`Time.Date`. -/
def Time.civil (t : Time) : ℤ × ℤ × ℤ := civilFromDays (t.sec / 86400)

def Time.year (t : Time) : ℤ := t.civil.1

def Time.month (t : Time) : ℤ := t.civil.2.1

def Time.day (t : Time) : ℤ := t.civil.2.2

/-- Go's `Time.Weekday`: 0 is Sunday, …, 6 is Saturday.  Day 0
(1970-01-01) was a Thursday (= 4). -/
def Time.weekday (t : Time) : ℤ := (t.sec / 86400 + 4) % 7

def Time.hour (t : Time) : ℤ := t.sec % 86400 / 3600

def Time.minute (t : Time) : ℤ := t.sec % 86400 % 3600 / 60

def Time.second (t : Time) : ℤ := t.sec % 86400 % 3600 % 60

/-- Go's `Time.Before` (no monotonic reading): lexicographic on
seconds, then nanoseconds. -/
def Time.before (t u : Time) : Bool :=
  decide (t.sec < u.sec ∨ (t.sec = u.sec ∧ t.nsec < u.nsec))

/-- Go's `Time.After`. -/
def Time.after (t u : Time) : Bool :=
  decide (u.sec < t.sec ∨ (u.sec = t.sec ∧ u.nsec < t.nsec))

/-- Month normalisation of Go's `time.Date`: fold an arbitrary month number
into a year adjustment and a month in `[1, 12]`. -/
def normMonth (y m : ℤ) : ℤ × ℤ := (y + (m - 1) / 12, (m - 1) % 12 + 1)

/-- Go's `time.Date` constructor (fixed location, in-range clock
arguments, nanoseconds passed through): normalises the month into the year
and absorbs any out-of-range day linearly, exactly as Go does by converting
to an absolute day count. -/
def mkTime (year month day hour minute second nsec : ℤ) : Time :=
  { sec := 86400 * daysFromCivil (normMonth year month).1 (normMonth year month).2 day +
      3600 * hour + 60 * minute + second
    nsec := nsec }

/-- Go's `Time.AddDate`: re-assemble the date from the civil components and
the wall clock. -/
def Time.addDate (t : Time) (years months days : ℤ) : Time :=
  mkTime (t.year + years) (t.month + months) (t.day + days)
    t.hour t.minute t.second t.nsec

/-- `daysFromCivil` is linear in its day argument. -/
theorem daysFromCivil_day_add (y m d k : ℤ) :
    daysFromCivil y m (d + k) = daysFromCivil y m d + k := by
  simp only [daysFromCivil]
  split_ifs <;> omega

/-- `normMonth` is the identity on already-normalised months. -/
theorem normMonth_id (y m : ℤ) (h1 : 1 ≤ m) (h2 : m ≤ 12) : normMonth y m = (y, m) := by
  simp only [normMonth, Prod.mk.injEq]
  omega

/-- The civil components of a `Time` convert back to its day number. -/
theorem daysFromCivil_civil (t : Time) :
    daysFromCivil t.year t.month t.day = t.sec / 86400 :=
  daysFromCivil_civilFromDays (t.sec / 86400)

/-- The civil month and day of a `Time` are a valid calendar date. -/
theorem civil_valid (t : Time) :
    1 ≤ t.month ∧ t.month ≤ 12 ∧ 1 ≤ t.day ∧ t.day ≤ daysInMonth t.year t.month :=
  civilFromDays_valid (t.sec / 86400)

/-- The wall clock of a `Time` sums back to its second-of-day. -/
theorem clock_sum (t : Time) :
    3600 * t.hour + 60 * t.minute + t.second = t.sec % 86400 := by
  simp only [Time.hour, Time.minute, Time.second]
  omega

/-- Adding `k` days with `AddDate` advances the seconds by exactly
`86400 * k` and keeps the nanoseconds. -/
theorem addDate_days_sec (t : Time) (k : ℤ) :
    (t.addDate 0 0 k).sec = t.sec + 86400 * k ∧ (t.addDate 0 0 k).nsec = t.nsec := by
  have hv := civil_valid t
  simp only [Time.addDate, mkTime, add_zero]
  rw [normMonth_id t.year t.month hv.1 hv.2.1]
  constructor
  · show 86400 * daysFromCivil t.year t.month (t.day + k) +
      3600 * t.hour + 60 * t.minute + t.second = t.sec + 86400 * k
    rw [daysFromCivil_day_add, daysFromCivil_civil]
    have := clock_sum t
    omega
  · trivial

/-! ## The program (main.go) -/

/-- `isSameDay` from main.go: do the two times fall on the same civil
`(year, month, day)`? -/
def isSameDay (day1 day2 : Time) : Bool :=
  decide (day1.year = day2.year ∧ day1.month = day2.month ∧ day1.day = day2.day)

/-- `isBusinessDay` from main.go: not a Saturday (6), not a Sunday (0), and
not on the same civil day as any entry of `holidays`. -/
def isBusinessDay (day : Time) (holidays : List Time) : Bool :=
  if day.weekday = 6 ∨ day.weekday = 0 then false
  else if holidays.any (fun h => isSameDay day h) then false
  else true

/-- The counting loop of `calcBusinessDaysInRange`:
`for d := start; !d.After(end); d = d.AddDate(0, 0, 1) { if isBusinessDay(d, holidays) { count++ } }`. -/
def countBusinessDays (endTime : Time) (holidays : List Time) (d : Time) : ℤ :=
  if d.after endTime then 0
  else (if isBusinessDay d holidays then 1 else 0) +
    countBusinessDays endTime holidays (d.addDate 0 0 1)
termination_by (endTime.sec + 86400 - d.sec).toNat
decreasing_by
  rename_i h
  simp only [Time.after, decide_eq_true_eq] at h
  have h1 := (addDate_days_sec d 1).1
  omega

/-- `calcBusinessDaysInRange` from main.go: errors when `end` is before
`start` (instant comparison), otherwise counts the business days visited by
stepping one day at a time from `start` while not after `end`. -/
def calcBusinessDaysInRange (start endTime : Time) (holidays : List Time) :
    Except String ℤ :=
  if endTime.before start then
    Except.error "end must be a date not earlier than start"
  else Except.ok (countBusinessDays endTime holidays start)

/-- `beginningOfMonth` from main.go: day 1 of the month of `t`, at
00:00:00. -/
def beginningOfMonth (t : Time) : Time :=
  mkTime t.year t.month 1 0 0 0 0

/-- `endOfMonth` from main.go: advance the first of the month by one month,
step back one day, and pin the clock to 23:59:59. -/
def endOfMonth (t : Time) : Time :=
  let firstDayOfMonth := beginningOfMonth t
  let nextMonth := firstDayOfMonth.addDate 0 1 0
  let endOfThisMonth := nextMonth.addDate 0 0 (-1)
  mkTime endOfThisMonth.year endOfThisMonth.month endOfThisMonth.day 23 59 59 0

/-- Decimal digit test for the date parser. -/
def isDigit (c : Char) : Bool := decide ('0' ≤ c ∧ c ≤ '9')

/-- Numeric value of a decimal digit character. -/
def digitVal (c : Char) : ℤ := (c.toNat : ℤ) - 48

/-- Go's `time.Parse` with the fixed layout `"2006-01-02"`: exactly four
year digits, a dash, two month digits, a dash, two day digits, nothing else;
the month must be in `[1, 12]` and the day in `[1, daysInMonth]` (Go
validates both and reports `"month out of range"` / `"day out of range"`).
The result is that date at 00:00:00. -/
def goParseDate (s : String) : Except String Time :=
  match s.toList with
  | [y1, y2, y3, y4, c1, m1, m2, c2, d1, d2] =>
    if isDigit y1 && isDigit y2 && isDigit y3 && isDigit y4 && c1 == '-' &&
        isDigit m1 && isDigit m2 && c2 == '-' && isDigit d1 && isDigit d2 then
      let year := 1000 * digitVal y1 + 100 * digitVal y2 + 10 * digitVal y3 + digitVal y4
      let month := 10 * digitVal m1 + digitVal m2
      let day := 10 * digitVal d1 + digitVal d2
      if month < 1 ∨ 12 < month then Except.error "month out of range"
      else if day < 1 ∨ daysInMonth year month < day then Except.error "day out of range"
      else Except.ok (mkTime year month day 0 0 0 0)
    else Except.error "cannot parse as 2006-01-02"
  | _ => Except.error "cannot parse as 2006-01-02"

/-- The parsing loop of `loadHolidays`: parse every entry, stopping with an
error at the first entry `time.Parse` rejects. -/
def parseHolidayList : List String → Except String (List Time)
  | [] => Except.ok []
  | s :: rest =>
    match goParseDate s with
    | Except.error _ => Except.error ("failed to parse holiday: " ++ s)
    | Except.ok t =>
      match parseHolidayList rest with
      | Except.error e => Except.error e
      | Except.ok ts => Except.ok (t :: ts)

/-- `loadHolidays` from main.go.  The embedded `holidays.yaml` bytes and the
third-party `yaml.Unmarshal` are outside the program's own code, so the
bytes are a parameter and the unmarshaller is an abstract function from the
raw bytes to either a parse error or the string list found under the
`holidays` key. -/
def loadHolidays (holidaysYAML : List Char)
    (unmarshal : List Char → Except String (List String)) :
    Except String (List Time) :=
  if holidaysYAML.length = 0 then
    Except.error "holidays.yaml is not embedded"
  else
    match unmarshal holidaysYAML with
    | Except.error e => Except.error e
    | Except.ok entries => parseHolidayList entries

/-- The values printed by `main`.  `percentElapsed` is the value of
`float64(businessDayIndex) / float64(businessDaysTotal) * 100`: a rational
number when the divisor is nonzero, and `none` when the divisor is zero, in
which case the Go float division yields a non-finite value (NaN here, since
the numerator is then also zero) that is printed as-is — there is no guard
in main.go. -/
structure Report where
  businessDayIndex : ℤ
  businessDaysLeft : ℤ
  remainingHours : ℤ
  percentElapsed : Option ℚ
  deriving Repr, DecidableEq

/-- The computation of `main` from main.go, with the process-supplied
current time `today` and the loaded holiday list as parameters (`main` exits
fatally when either `calcBusinessDaysInRange` call errors; that is the
`Except.error` case). -/
def mainReport (today : Time) (holidays : List Time) : Except String Report :=
  let start := beginningOfMonth today
  let endT := endOfMonth today
  match calcBusinessDaysInRange start today holidays with
  | Except.error e => Except.error e
  | Except.ok businessDaysPassed =>
    match calcBusinessDaysInRange start endT holidays with
    | Except.error e => Except.error e
    | Except.ok businessDaysTotal =>
      Except.ok
        { businessDayIndex := businessDaysPassed
          businessDaysLeft := businessDaysTotal - businessDaysPassed
          remainingHours := (businessDaysTotal - businessDaysPassed) * 8
          percentElapsed :=
            if businessDaysTotal = 0 then none
            else some ((businessDaysPassed : ℚ) / (businessDaysTotal : ℚ) * 100) }

/-! ## Specification-side definitions

These definitions transcribe the wording of the specification, to be
compared with the program functions above. -/

/-- Day number `z` has a weekday of Monday through Friday. -/
def weekdayIsMonToFri (z : ℤ) : Prop := (z + 4) % 7 ≠ 0 ∧ (z + 4) % 7 ≠ 6

instance (z : ℤ) : Decidable (weekdayIsMonToFri z) := by
  unfold weekdayIsMonToFri; infer_instance

/-- Day number `z` is in the holiday set by date-only equality. -/
def inHolidaySet (z : ℤ) (holidays : List Time) : Bool :=
  holidays.any (fun h => decide (civilFromDays z = h.civil))

/-- Day number `z` counts as a business day for the specification: its
weekday is Monday through Friday and it is not in the holiday set by
date-only equality. -/
def specDayOK (z : ℤ) (holidays : List Time) : Bool :=
  decide (weekdayIsMonToFri z) && ! inHolidaySet z holidays

/-- The specification's Range Counter value: the number of calendar days
`z` in `[a, b]` (inclusive, as day numbers) whose weekday is Monday through
Friday and which are not in the holiday set by date-only equality. -/
def specBusinessDayCount (a b : ℤ) (holidays : List Time) : ℤ :=
  (((List.range (b + 1 - a).toNat).map (fun i : ℕ => a + (i : ℤ))).filter
    (fun z => specDayOK z holidays)).length

/-! ## Characterising the counting loop -/

/-- An empty day range counts zero. -/
theorem specCount_empty (a b : ℤ) (hs : List Time) (h : b < a) :
    specBusinessDayCount a b hs = 0 := by
  simp only [specBusinessDayCount]
  have hn : (b + 1 - a).toNat = 0 := by omega
  rw [hn]
  simp

/-- Splitting off the first day of a nonempty day range. -/
theorem specCount_cons (a b : ℤ) (hs : List Time) (h : a ≤ b) :
    specBusinessDayCount a b hs =
      (if specDayOK a hs then 1 else 0) + specBusinessDayCount (a + 1) b hs := by
  simp only [specBusinessDayCount]
  have hn : (b + 1 - a).toNat = (b + 1 - (a + 1)).toNat + 1 := by omega
  rw [hn, List.range_succ_eq_map]
  simp only [List.map_cons, List.map_map, List.filter_cons, Nat.cast_zero, add_zero]
  have hfun : ((fun i : ℕ => a + (i : ℤ)) ∘ Nat.succ) = fun i : ℕ => (a + 1) + (i : ℤ) := by
    funext i
    simp only [Function.comp_apply, Nat.succ_eq_add_one]
    push_cast
    ring
  rw [hfun]
  by_cases hP : specDayOK a hs = true
  · simp [hP]
    omega
  · simp only [Bool.not_eq_true] at hP
    simp [hP]

/-- The spec count is nonnegative. -/
theorem specCount_nonneg (a b : ℤ) (hs : List Time) : 0 ≤ specBusinessDayCount a b hs := by
  simp only [specBusinessDayCount]
  positivity

/-- The spec count over `[a, b]` splits at any `m` with `a - 1 ≤ m ≤ b`. -/
theorem specCount_split (hs : List Time) :
    ∀ n : ℕ, ∀ a m b : ℤ, (m + 1 - a).toNat = n → a - 1 ≤ m → m ≤ b →
      specBusinessDayCount a b hs =
        specBusinessDayCount a m hs + specBusinessDayCount (m + 1) b hs := by
  intro n
  induction n with
  | zero =>
    intro a m b hn h1 h2
    have hm : m = a - 1 := by omega
    subst hm
    rw [specCount_empty a (a - 1) hs (by omega)]
    norm_num
  | succ k ih =>
    intro a m b hn h1 h2
    have ha : a ≤ m := by omega
    rw [specCount_cons a b hs (by omega), specCount_cons a m hs ha,
      ih (a + 1) m b (by omega) (by omega) h2]
    ring

/-- The spec count is monotone in the upper end of the range. -/
theorem specCount_mono (a b1 b2 : ℤ) (hs : List Time) (h : b1 ≤ b2) :
    specBusinessDayCount a b1 hs ≤ specBusinessDayCount a b2 hs := by
  rcases le_or_lt a (b1 + 1) with ha | ha
  · rw [specCount_split hs (b1 + 1 - a).toNat a b1 b2 rfl (by omega) h]
    have := specCount_nonneg (b1 + 1) b2 hs
    omega
  · rw [specCount_empty a b1 hs (by omega)]
    exact specCount_nonneg a b2 hs

/-- `isSameDay` compares exactly the civil date triples. -/
theorem isSameDay_eq_civil (a b : Time) : isSameDay a b = decide (a.civil = b.civil) := by
  simp only [isSameDay, Time.year, Time.month, Time.day, decide_eq_decide, Prod.ext_iff]

/-- The program's business-day predicate agrees with the specification's
day-number predicate on the day containing `d`. -/
theorem isBusinessDay_eq_specDayOK (d : Time) (hs : List Time) :
    isBusinessDay d hs = specDayOK d.days hs := by
  have hany : inHolidaySet (d.sec / 86400) hs = hs.any (fun h => isSameDay d h) := by
    simp only [inHolidaySet, isSameDay_eq_civil]
    rfl
  simp only [isBusinessDay, specDayOK, weekdayIsMonToFri, Time.weekday, Time.days, hany]
  by_cases hw : (d.sec / 86400 + 4) % 7 = 6 ∨ (d.sec / 86400 + 4) % 7 = 0
  · rw [if_pos hw]
    rcases hw with hw | hw <;> simp [hw]
  · rw [if_neg hw]
    have h1 : ¬ (d.sec / 86400 + 4) % 7 = 6 := fun h => hw (Or.inl h)
    have h2 : ¬ (d.sec / 86400 + 4) % 7 = 0 := fun h => hw (Or.inr h)
    by_cases hh : (hs.any fun h => isSameDay d h) = true
    · simp [hh, h1, h2]
    · simp only [Bool.not_eq_true] at hh
      simp [hh, h1, h2]

/-- The number of loop iterations `calcBusinessDaysInRange` performs when
started at `d` with end time `e` (meaningful when `d` is not after `e`):
one day is visited for every day step until the stepped time goes past
`e`. -/
def loopIters (d e : Time) : ℤ :=
  if (e.sec - d.sec) % 86400 = 0 ∧ e.nsec < d.nsec
  then (e.sec - d.sec) / 86400
  else (e.sec - d.sec) / 86400 + 1

/-- Not being after `e` is exactly having at least one iteration to run. -/
theorem loopIters_pos (d e : Time) : d.after e = false ↔ 1 ≤ loopIters d e := by
  simp only [Time.after, loopIters, decide_eq_false_iff_not]
  split_ifs with h <;> omega

/-- Stepping one day forward consumes one iteration. -/
theorem loopIters_step (d e : Time) : loopIters (d.addDate 0 0 1) e = loopIters d e - 1 := by
  obtain ⟨h1, h2⟩ := addDate_days_sec d 1
  simp only [loopIters, h1, h2]
  split_ifs <;> omega

/-- Stepping one day forward moves to the next day number. -/
theorem addDate_one_day (d : Time) : (d.addDate 0 0 1).days = d.days + 1 := by
  have h1 := (addDate_days_sec d 1).1
  simp only [Time.days, h1]
  omega

/-- The loop body returns 0 once the current day is past the end. -/
theorem countBusinessDays_stop (e : Time) (hs : List Time) (d : Time)
    (h : d.after e = true) : countBusinessDays e hs d = 0 := by
  rw [countBusinessDays]
  simp [h]

/-- Master characterisation of the counting loop: starting at `d` (not after
`e`), it returns the spec count of the day-number interval it visits. -/
theorem countBusinessDays_spec (e : Time) (hs : List Time) :
    ∀ n : ℕ, ∀ d : Time, (loopIters d e).toNat = n → d.after e = false →
      countBusinessDays e hs d =
        specBusinessDayCount d.days (d.days + loopIters d e - 1) hs := by
  intro n
  induction n with
  | zero =>
    intro d hn h
    have := (loopIters_pos d e).mp h
    omega
  | succ k ih =>
    intro d hn h
    have hpos := (loopIters_pos d e).mp h
    rw [countBusinessDays]
    rw [if_neg (by simp [h])]
    rw [isBusinessDay_eq_specDayOK]
    have hstep := loopIters_step d e
    have hday := addDate_one_day d
    rcases Classical.em ((d.addDate 0 0 1).after e = true) with hafter | hafter
    · have hle : loopIters (d.addDate 0 0 1) e ≤ 0 := by
        by_contra hgt
        exact absurd ((loopIters_pos (d.addDate 0 0 1) e).mpr (by omega))
          (by simp [hafter])
      have hone : loopIters d e = 1 := by omega
      rw [countBusinessDays_stop e hs _ hafter, hone]
      rw [specCount_cons d.days (d.days + 1 - 1) hs (by omega)]
      rw [specCount_empty (d.days + 1) (d.days + 1 - 1) hs (by omega)]
    · have hafterF : (d.addDate 0 0 1).after e = false := by
        simp only [Bool.not_eq_true] at hafter
        exact hafter
      have hk : (loopIters (d.addDate 0 0 1) e).toNat = k := by
        have := (loopIters_pos _ e).mp hafterF
        omega
      rw [ih (d.addDate 0 0 1) hk hafterF, hstep, hday]
      rw [specCount_cons d.days (d.days + loopIters d e - 1) hs (by omega)]
      have harg : d.days + 1 + (loopIters d e - 1) - 1 = d.days + loopIters d e - 1 := by ring
      rw [harg]

/-- `calcBusinessDaysInRange` on a non-error input returns the spec count of
the visited day interval. -/
theorem calc_spec (start e : Time) (hs : List Time) (h : e.before start = false) :
    calcBusinessDaysInRange start e hs =
      Except.ok (specBusinessDayCount start.days (start.days + loopIters start e - 1) hs) := by
  have hafter : start.after e = false := by
    simpa [Time.after, Time.before] using h
  rw [calcBusinessDaysInRange, if_neg (by simp [h])]
  rw [countBusinessDays_spec e hs (loopIters start e).toNat start rfl hafter]

/-- For ranges whose start time-of-day is not later than the end
time-of-day, the visited interval is exactly the calendar days from the
start day to the end day. -/
theorem loopIters_clock (s e : Time)
    (hc : s.sec % 86400 < e.sec % 86400 ∨
      (s.sec % 86400 = e.sec % 86400 ∧ s.nsec ≤ e.nsec)) :
    loopIters s e = e.days - s.days + 1 := by
  simp only [loopIters, Time.days]
  split_ifs with h <;> omega

/-! ## Month boundaries -/

/-- Every month has between 28 and 31 days. -/
theorem daysInMonth_bounds (y m : ℤ) : 28 ≤ daysInMonth y m ∧ daysInMonth y m ≤ 31 := by
  simp only [daysInMonth]
  split_ifs <;> omega

/-- Normalising month `m + 1` for `m ∈ [1, 12]` rolls over exactly at
December. -/
theorem normMonth_next (y m : ℤ) (h1 : 1 ≤ m) (h2 : m ≤ 12) :
    normMonth y (m + 1) = (if m = 12 then y + 1 else y, if m = 12 then 1 else m + 1) := by
  simp only [normMonth, Prod.mk.injEq]
  split_ifs <;> omega

/-- The day before day 1 of the following month is the last day of the
current month. -/
theorem daysFromCivil_rollover (y m : ℤ) (h1 : 1 ≤ m) (h2 : m ≤ 12) :
    daysFromCivil (normMonth y (m + 1)).1 (normMonth y (m + 1)).2 1 - 1 =
      daysFromCivil y m (daysInMonth y m) := by
  simp only [normMonth, daysFromCivil, daysInMonth, isLeap]
  interval_cases m <;> norm_num <;> (try split_ifs) <;> omega

/-- `beginningOfMonth` lands on day 1 of the month of `t`, at midnight. -/
theorem beginningOfMonth_spec (t : Time) :
    (beginningOfMonth t).sec = 86400 * daysFromCivil t.year t.month 1 ∧
    (beginningOfMonth t).nsec = 0 ∧
    (beginningOfMonth t).civil = (t.year, t.month, 1) := by
  have hv := civil_valid t
  have hsec : (beginningOfMonth t).sec = 86400 * daysFromCivil t.year t.month 1 := by
    simp only [beginningOfMonth, mkTime, normMonth_id t.year t.month hv.1 hv.2.1]
    ring
  refine ⟨hsec, rfl, ?_⟩
  have hdays : (beginningOfMonth t).sec / 86400 = daysFromCivil t.year t.month 1 := by
    rw [hsec]
    omega
  show civilFromDays ((beginningOfMonth t).sec / 86400) = (t.year, t.month, 1)
  rw [hdays]
  exact civilFromDays_daysFromCivil t.year t.month 1 hv.1 hv.2.1 (le_refl 1)
    (by have := daysInMonth_bounds t.year t.month; omega)

/-- `endOfMonth` lands on the last day of the month of `t`, at
23:59:59. -/
theorem endOfMonth_spec (t : Time) :
    (endOfMonth t).sec =
      86400 * daysFromCivil t.year t.month (daysInMonth t.year t.month) + 86399 ∧
    (endOfMonth t).nsec = 0 ∧
    (endOfMonth t).civil = (t.year, t.month, daysInMonth t.year t.month) := by
  have hv := civil_valid t
  have hdimb := daysInMonth_bounds t.year t.month
  obtain ⟨hb1, hb2, hb3⟩ := beginningOfMonth_spec t
  -- the first of the next month
  have hbyear : (beginningOfMonth t).year = t.year := by
    simp only [Time.year, hb3]
  have hbmonth : (beginningOfMonth t).month = t.month := by
    simp only [Time.month, hb3]
  have hbday : (beginningOfMonth t).day = 1 := by
    simp only [Time.day, hb3]
  have hbclock : (beginningOfMonth t).hour = 0 ∧ (beginningOfMonth t).minute = 0 ∧
      (beginningOfMonth t).second = 0 := by
    simp only [Time.hour, Time.minute, Time.second, hb1]
    omega
  have hnext : ((beginningOfMonth t).addDate 0 1 0).sec =
      86400 * daysFromCivil (normMonth t.year (t.month + 1)).1
        (normMonth t.year (t.month + 1)).2 1 ∧
      ((beginningOfMonth t).addDate 0 1 0).nsec = 0 := by
    simp only [Time.addDate, mkTime, hbyear, hbmonth, hbday, hbclock.1, hbclock.2.1,
      hbclock.2.2, hb2, add_zero, zero_add]
    constructor
    · ring
    · trivial
  -- one day back: the last day of this month
  have hprev : (((beginningOfMonth t).addDate 0 1 0).addDate 0 0 (-1)).sec =
      86400 * daysFromCivil t.year t.month (daysInMonth t.year t.month) ∧
      (((beginningOfMonth t).addDate 0 1 0).addDate 0 0 (-1)).nsec = 0 := by
    obtain ⟨ha1, ha2⟩ := addDate_days_sec ((beginningOfMonth t).addDate 0 1 0) (-1)
    rw [ha1, ha2, hnext.1, hnext.2]
    constructor
    · have := daysFromCivil_rollover t.year t.month hv.1 hv.2.1
      omega
    · trivial
  have hprevciv : (((beginningOfMonth t).addDate 0 1 0).addDate 0 0 (-1)).civil =
      (t.year, t.month, daysInMonth t.year t.month) := by
    show civilFromDays ((((beginningOfMonth t).addDate 0 1 0).addDate 0 0 (-1)).sec / 86400) =
      (t.year, t.month, daysInMonth t.year t.month)
    rw [hprev.1]
    have hq : 86400 * daysFromCivil t.year t.month (daysInMonth t.year t.month) / 86400 =
        daysFromCivil t.year t.month (daysInMonth t.year t.month) := by omega
    rw [hq]
    exact civilFromDays_daysFromCivil t.year t.month (daysInMonth t.year t.month)
      hv.1 hv.2.1 (by omega) (le_refl _)
  have heyear : (((beginningOfMonth t).addDate 0 1 0).addDate 0 0 (-1)).year = t.year := by
    simp only [Time.year, hprevciv]
  have hemonth : (((beginningOfMonth t).addDate 0 1 0).addDate 0 0 (-1)).month = t.month := by
    simp only [Time.month, hprevciv]
  have heday : (((beginningOfMonth t).addDate 0 1 0).addDate 0 0 (-1)).day =
      daysInMonth t.year t.month := by
    simp only [Time.day, hprevciv]
  have hsec : (endOfMonth t).sec =
      86400 * daysFromCivil t.year t.month (daysInMonth t.year t.month) + 86399 := by
    simp only [endOfMonth, mkTime, heyear, hemonth, heday,
      normMonth_id t.year t.month hv.1 hv.2.1]
    ring
  refine ⟨hsec, rfl, ?_⟩
  show civilFromDays ((endOfMonth t).sec / 86400) = (t.year, t.month, daysInMonth t.year t.month)
  rw [hsec]
  have hq : (86400 * daysFromCivil t.year t.month (daysInMonth t.year t.month) + 86399) / 86400 =
      daysFromCivil t.year t.month (daysInMonth t.year t.month) := by omega
  rw [hq]
  exact civilFromDays_daysFromCivil t.year t.month (daysInMonth t.year t.month)
    hv.1 hv.2.1 (by omega) (le_refl _)

/-- Assembling `mainReport` from the two range-counter results. -/
theorem mainReport_eq (today : Time) (hs : List Time) (p t : ℤ)
    (hp : calcBusinessDaysInRange (beginningOfMonth today) today hs = Except.ok p)
    (ht : calcBusinessDaysInRange (beginningOfMonth today) (endOfMonth today) hs =
      Except.ok t) :
    mainReport today hs = Except.ok
      { businessDayIndex := p
        businessDaysLeft := t - p
        remainingHours := (t - p) * 8
        percentElapsed := if t = 0 then none else some ((p : ℚ) / (t : ℚ) * 100) } := by
  unfold mainReport
  simp only []
  rw [hp]
  rw [ht]

/-- Decomposing a successful `mainReport` into the two range-counter
results. -/
theorem mainReport_cases (today : Time) (hs : List Time) (r : Report)
    (h : mainReport today hs = Except.ok r) :
    ∃ p t, calcBusinessDaysInRange (beginningOfMonth today) today hs = Except.ok p ∧
      calcBusinessDaysInRange (beginningOfMonth today) (endOfMonth today) hs = Except.ok t ∧
      r = { businessDayIndex := p
            businessDaysLeft := t - p
            remainingHours := (t - p) * 8
            percentElapsed := if t = 0 then none else some ((p : ℚ) / (t : ℚ) * 100) } := by
  cases hcp : calcBusinessDaysInRange (beginningOfMonth today) today hs with
  | error e =>
    unfold mainReport at h
    simp only [] at h
    rw [hcp] at h
    simp at h
  | ok p =>
    cases hct : calcBusinessDaysInRange (beginningOfMonth today) (endOfMonth today) hs with
    | error e =>
      unfold mainReport at h
      simp only [] at h
      rw [hcp] at h
      simp only [] at h
      rw [hct] at h
      simp at h
    | ok t =>
      refine ⟨p, t, rfl, rfl, ?_⟩
      rw [mainReport_eq today hs p t hcp hct] at h
      injection h with h
      exact h.symm

/-! ## The claims -/

/-- C3 (counterexample): with `start` = 2025-01-01 01:00:00 and `end` =
2025-01-01 00:00:00 the two times fall on the same calendar date — so under
date-only comparison `end` does not precede `start` — yet
`calcBusinessDaysInRange` returns the InvalidRangeError, because the code
compares the full instants with `end.Before(start)`, time of day
included. -/
theorem claim3_counterexample :
    (mkTime 2025 1 1 1 0 0 0).civil = (mkTime 2025 1 1 0 0 0 0).civil ∧
    calcBusinessDaysInRange (mkTime 2025 1 1 1 0 0 0) (mkTime 2025 1 1 0 0 0 0) [] =
      Except.error "end must be a date not earlier than start" := by
  constructor
  · decide
  · rfl

/-- C3 (amended): `calcBusinessDaysInRange` returns the InvalidRangeError
exactly when the `end` instant is strictly before the `start` instant under
the full comparison of Go's `Time.Before` — seconds then nanoseconds, the
time-of-day included, not date-only; on every other input it returns a
count without error. -/
theorem claim3_error_iff_instant_precedes (s e : Time) (hs : List Time) :
    ((∃ msg, calcBusinessDaysInRange s e hs = Except.error msg) ↔ e.before s = true) ∧
    (e.before s = false → ∃ n, calcBusinessDaysInRange s e hs = Except.ok n) := by
  constructor
  · constructor
    · rintro ⟨msg, hmsg⟩
      by_contra hb
      have hb2 : e.before s = false := by
        simp only [Bool.not_eq_true] at hb
        exact hb
      rw [calcBusinessDaysInRange, if_neg (by simp [hb2])] at hmsg
      exact Except.noConfusion hmsg
    · intro hb
      exact ⟨_, by rw [calcBusinessDaysInRange, if_pos (by simp [hb])]⟩
  · intro hb
    exact ⟨_, by rw [calcBusinessDaysInRange, if_neg (by simp [hb])]⟩

/-- C5: the last day of the month computed by `endOfMonth`, advanced by one
day, is day 1 of the following month (rolling December into January), for
every reference time; and February has 29 days in 2024 and 28 days
in 2025, so `endOfMonth` of a date in February 2024 falls on 2024-02-29 and
of a date in February 2025 on 2025-02-28. -/
theorem claim5_month_boundary (t : Time) :
    (endOfMonth t).civil = (t.year, t.month, daysInMonth t.year t.month) ∧
    ((endOfMonth t).addDate 0 0 1).civil =
      (if t.month = 12 then t.year + 1 else t.year,
        if t.month = 12 then 1 else t.month + 1, 1) ∧
    daysInMonth 2024 2 = 29 ∧ daysInMonth 2025 2 = 28 := by
  have hv := civil_valid t
  have hdimb := daysInMonth_bounds t.year t.month
  obtain ⟨he1, he2, he3⟩ := endOfMonth_spec t
  refine ⟨he3, ?_, by decide, by decide⟩
  have hsec := (addDate_days_sec (endOfMonth t) 1).1
  show civilFromDays (((endOfMonth t).addDate 0 0 1).sec / 86400) = _
  rw [hsec, he1]
  have hq : (86400 * daysFromCivil t.year t.month (daysInMonth t.year t.month) + 86399 +
      86400 * 1) / 86400 = daysFromCivil t.year t.month (daysInMonth t.year t.month) + 1 := by
    omega
  rw [hq]
  have hroll := daysFromCivil_rollover t.year t.month hv.1 hv.2.1
  have hnext := normMonth_next t.year t.month hv.1 hv.2.1
  have harg : daysFromCivil t.year t.month (daysInMonth t.year t.month) + 1 =
      daysFromCivil (normMonth t.year (t.month + 1)).1 (normMonth t.year (t.month + 1)).2 1 := by
    omega
  rw [harg, hnext]
  by_cases h12 : t.month = 12
  · rw [if_pos h12, if_pos h12]
    exact civilFromDays_daysFromCivil (t.year + 1) 1 1 (by omega) (by omega) (le_refl 1)
      (by have := daysInMonth_bounds (t.year + 1) 1; omega)
  · rw [if_neg h12, if_neg h12]
    exact civilFromDays_daysFromCivil t.year (t.month + 1) 1 (by omega) (by omega) (le_refl 1)
      (by have := daysInMonth_bounds t.year (t.month + 1); omega)

/-- C7: `isBusinessDay` returns true exactly when the day is not a Saturday
(weekday 6), not a Sunday (weekday 0), and not on the same
`(year, month, day)` date as any holiday; in particular it is false on
every Saturday and Sunday no matter the holiday list. -/
theorem claim7_isBusinessDay_iff (d : Time) (hs : List Time) :
    (isBusinessDay d hs = true ↔
      (d.weekday ≠ 6 ∧ d.weekday ≠ 0 ∧
        ∀ h ∈ hs, ¬(d.year = h.year ∧ d.month = h.month ∧ d.day = h.day))) ∧
    (d.weekday = 6 ∨ d.weekday = 0 → isBusinessDay d hs = false) := by
  constructor
  · constructor
    · intro hb
      simp only [isBusinessDay] at hb
      split_ifs at hb with h1 h2
      all_goals try simp only [Bool.false_eq_true] at hb
      push_neg at h1
      refine ⟨h1.1, h1.2, ?_⟩
      intro h hmem hcontra
      exact h2 (List.any_eq_true.mpr ⟨h, hmem, by
        simp only [isSameDay, decide_eq_true_eq]
        exact hcontra⟩)
    · rintro ⟨hw1, hw2, hh⟩
      simp only [isBusinessDay]
      rw [if_neg (by tauto)]
      rw [if_neg ?_]
      intro hany
      obtain ⟨x, hmem, hx⟩ := List.any_eq_true.mp hany
      simp only [isSameDay, decide_eq_true_eq] at hx
      exact hh x hmem hx
  · intro hw
    simp only [isBusinessDay]
    rw [if_pos hw]

/-- C9: the business-day predicate depends only on the civil calendar date
of its time argument — two times with the same `(year, month, day)` reading
give the same answer for every holiday list, whatever their times of
day. -/
theorem claim9_date_only_dependence (t1 t2 : Time) (hs : List Time)
    (h : t1.civil = t2.civil) : isBusinessDay t1 hs = isBusinessDay t2 hs := by
  have e1 := daysFromCivil_civilFromDays (t1.sec / 86400)
  have e2 := daysFromCivil_civilFromDays (t2.sec / 86400)
  simp only [Time.civil] at h
  rw [h] at e1
  have hd : t1.days = t2.days := by
    simp only [Time.days]
    omega
  rw [isBusinessDay_eq_specDayOK, isBusinessDay_eq_specDayOK, hd]

/-- C9 witness: 09:00 and 23:59:59.000000005 on 2025-01-15 agree. -/
theorem claim9_witness :
    (mkTime 2025 1 15 9 0 0 0).civil = (mkTime 2025 1 15 23 59 59 5).civil ∧
    isBusinessDay (mkTime 2025 1 15 9 0 0 0) [mkTime 2025 1 1 0 0 0 0] =
      isBusinessDay (mkTime 2025 1 15 23 59 59 5) [mkTime 2025 1 1 0 0 0 0] :=
  ⟨by decide, claim9_date_only_dependence _ _ _ (by decide)⟩

/-- C7 witness: Saturday 2025-01-04 is not a business day even with an
empty holiday list, by the second half of the claim. -/
theorem claim7_witness :
    (mkTime 2025 1 4 0 0 0 0).weekday = 6 ∧
    isBusinessDay (mkTime 2025 1 4 0 0 0 0) [] = false :=
  ⟨by decide, (claim7_isBusinessDay_iff (mkTime 2025 1 4 0 0 0 0) []).2 (Or.inl (by decide))⟩

/-- C1 (counterexample): for `start` = 2025-01-01 23:00 and `end` =
2025-01-02 01:00 (a valid range: the end instant is after the start
instant), the range spans the two calendar days 2025-01-01 (Wednesday) and
2025-01-02 (Thursday), both business days, so the claimed count is 2 — but
the loop steps a full 24 h at a time carrying the start's time of day, so
its second step (2025-01-02 23:00) is already past `end` and the code
returns 1. -/
theorem claim1_counterexample :
    (mkTime 2025 1 2 1 0 0 0).before (mkTime 2025 1 1 23 0 0 0) = false ∧
    calcBusinessDaysInRange (mkTime 2025 1 1 23 0 0 0) (mkTime 2025 1 2 1 0 0 0) [] =
      Except.ok 1 ∧
    specBusinessDayCount (mkTime 2025 1 1 23 0 0 0).days (mkTime 2025 1 2 1 0 0 0).days [] =
      2 := by
  refine ⟨by decide, ?_, by decide⟩
  rw [calc_spec _ _ _ (by decide)]
  simp only [Except.ok.injEq]
  decide

/-- C1 (amended): for every valid range (end not before start as instants)
whose start time-of-day is not later than its end time-of-day — in
particular whenever both ends carry the same clock reading, as in `main`
where the start is a midnight — `calcBusinessDaysInRange` returns exactly
the number of calendar days in `[start, end]` whose weekday is Monday
through Friday and which are not in the holiday set by date-only
equality. -/
theorem claim1_range_counter_counts_days (s e : Time) (hs : List Time)
    (hok : e.before s = false)
    (hclock : s.sec % 86400 < e.sec % 86400 ∨
      (s.sec % 86400 = e.sec % 86400 ∧ s.nsec ≤ e.nsec)) :
    calcBusinessDaysInRange s e hs = Except.ok (specBusinessDayCount s.days e.days hs) := by
  rw [calc_spec s e hs hok, loopIters_clock s e hclock]
  have h : s.days + (e.days - s.days + 1) - 1 = e.days := by ring
  rw [h]

/-- C1 witness: January 2025 with no holidays. -/
theorem claim1_witness :
    (mkTime 2025 1 31 0 0 0 0).before (mkTime 2025 1 1 0 0 0 0) = false ∧
    calcBusinessDaysInRange (mkTime 2025 1 1 0 0 0 0) (mkTime 2025 1 31 0 0 0 0) [] =
      Except.ok (specBusinessDayCount (mkTime 2025 1 1 0 0 0 0).days
        (mkTime 2025 1 31 0 0 0 0).days []) :=
  ⟨by decide, claim1_range_counter_counts_days _ _ _ (by decide) (by decide)⟩

/-- C4 (counterexample): with `start` = 2025-01-01 00:00, `mid` =
2025-01-01 13:00 and `end` = 2025-01-02 12:00 we have
`start ≤ mid < end`, and the whole range counts 2 business days, but the
partition law fails: `mid` plus one day is 2025-01-02 13:00, which is
after `end`, so the second sub-range is rejected as invalid instead of
contributing the missing day. -/
theorem claim4_counterexample :
    (mkTime 2025 1 1 13 0 0 0).before (mkTime 2025 1 1 0 0 0 0) = false ∧
    (mkTime 2025 1 1 13 0 0 0).before (mkTime 2025 1 2 12 0 0 0) = true ∧
    calcBusinessDaysInRange (mkTime 2025 1 1 0 0 0 0) (mkTime 2025 1 2 12 0 0 0) [] =
      Except.ok 2 ∧
    calcBusinessDaysInRange (mkTime 2025 1 1 0 0 0 0) (mkTime 2025 1 1 13 0 0 0) [] =
      Except.ok 1 ∧
    calcBusinessDaysInRange ((mkTime 2025 1 1 13 0 0 0).addDate 0 0 1)
      (mkTime 2025 1 2 12 0 0 0) [] =
      Except.error "end must be a date not earlier than start" := by
  refine ⟨by decide, by decide, ?_, ?_, ?_⟩
  · rw [calc_spec _ _ _ (by decide)]
    simp only [Except.ok.injEq]
    decide
  · rw [calc_spec _ _ _ (by decide)]
    simp only [Except.ok.injEq]
    decide
  · rw [calcBusinessDaysInRange, if_pos]
    have h := (addDate_days_sec (mkTime 2025 1 1 13 0 0 0) 1).1
    have h2 := (addDate_days_sec (mkTime 2025 1 1 13 0 0 0) 1).2
    simp only [Time.before, decide_eq_true_eq, h, h2]
    decide

/-- C4 (amended): the partition law holds whenever `start`, `mid` and `end`
all carry the same time of day (seconds-of-day and nanoseconds) — in
particular for pure calendar dates at midnight as the data model intends:
for `start ≤ mid < end`, the count over `[start, end]` is the count over
`[start, mid]` plus the count over `[mid + one day, end]`. -/
theorem claim4_additivity_aligned (s mid e : Time) (hs : List Time)
    (h1 : mid.before s = false) (h2 : mid.before e = true)
    (hc1 : s.sec % 86400 = mid.sec % 86400 ∧ s.nsec = mid.nsec)
    (hc2 : mid.sec % 86400 = e.sec % 86400 ∧ mid.nsec = e.nsec) :
    ∃ a b, calcBusinessDaysInRange s mid hs = Except.ok a ∧
      calcBusinessDaysInRange (mid.addDate 0 0 1) e hs = Except.ok b ∧
      calcBusinessDaysInRange s e hs = Except.ok (a + b) := by
  have hb1 : ¬(mid.sec < s.sec ∨ (mid.sec = s.sec ∧ mid.nsec < s.nsec)) := by
    simpa [Time.before] using h1
  have hb2 : mid.sec < e.sec ∨ (mid.sec = e.sec ∧ mid.nsec < e.nsec) := by
    simpa [Time.before] using h2
  have hmd1 := addDate_days_sec mid 1
  have hday1 := addDate_one_day mid
  have hsecmid : mid.sec < e.sec := by omega
  have hstep : mid.sec + 86400 ≤ e.sec := by omega
  have he_s : e.before s = false := by
    simp only [Time.before, decide_eq_false_iff_not]
    omega
  have he_mid1 : e.before (mid.addDate 0 0 1) = false := by
    simp only [Time.before, decide_eq_false_iff_not, hmd1.1, hmd1.2]
    omega
  have hdm : s.days ≤ mid.days := by
    simp only [Time.days]
    omega
  have hde : mid.days < e.days := by
    simp only [Time.days]
    omega
  have hi1 : loopIters s mid = mid.days - s.days + 1 :=
    loopIters_clock s mid (Or.inr ⟨hc1.1, le_of_eq hc1.2⟩)
  have hclock3 : (mid.addDate 0 0 1).sec % 86400 = e.sec % 86400 ∧
      (mid.addDate 0 0 1).nsec = e.nsec := by
    rw [hmd1.1, hmd1.2]
    exact ⟨by omega, hc2.2⟩
  have hi2 : loopIters (mid.addDate 0 0 1) e = e.days - (mid.days + 1) + 1 := by
    rw [loopIters_clock _ e (Or.inr ⟨hclock3.1, le_of_eq hclock3.2⟩), hday1]
  have hi3 : loopIters s e = e.days - s.days + 1 :=
    loopIters_clock s e (Or.inr ⟨by omega, by omega⟩)
  refine ⟨_, _, calc_spec s mid hs h1, calc_spec _ e hs he_mid1, ?_⟩
  rw [calc_spec s e hs he_s, hi1, hi2, hi3, hday1]
  simp only [Except.ok.injEq]
  have e1 : s.days + (e.days - s.days + 1) - 1 = e.days := by ring
  have e2 : s.days + (mid.days - s.days + 1) - 1 = mid.days := by ring
  have e3 : mid.days + 1 + (e.days - (mid.days + 1) + 1) - 1 = e.days := by ring
  rw [e1, e2, e3]
  exact specCount_split hs (mid.days + 1 - s.days).toNat s.days mid.days e.days rfl
    (by omega) (by omega)

/-- C4 witness: midnight-aligned 2025-01-01 ≤ 2025-01-15 < 2025-01-31. -/
theorem claim4_witness :
    (mkTime 2025 1 15 0 0 0 0).before (mkTime 2025 1 1 0 0 0 0) = false ∧
    (mkTime 2025 1 15 0 0 0 0).before (mkTime 2025 1 31 0 0 0 0) = true ∧
    ∃ a b, calcBusinessDaysInRange (mkTime 2025 1 1 0 0 0 0)
        (mkTime 2025 1 15 0 0 0 0) [] = Except.ok a ∧
      calcBusinessDaysInRange ((mkTime 2025 1 15 0 0 0 0).addDate 0 0 1)
        (mkTime 2025 1 31 0 0 0 0) [] = Except.ok b ∧
      calcBusinessDaysInRange (mkTime 2025 1 1 0 0 0 0)
        (mkTime 2025 1 31 0 0 0 0) [] = Except.ok (a + b) :=
  ⟨by decide, by decide, claim4_additivity_aligned _ _ _ _ (by decide) (by decide)
    (by decide) (by decide)⟩

/-- C10: for a fixed start and holiday list the Range Counter is monotone in
its end argument (`start ≤ e1 ≤ e2` gives counts `n1 ≤ n2`, both without
error); consequently the remaining-business-days value `main` computes —
`businessDaysTotal - businessDaysPassed` — is never negative, since `today`
lies between its month's first midnight and its month's last second.  (The
`0 ≤ today.nsec` hypothesis is the invariant every Go `time.Time` carries:
its nanosecond field is in `[0, 1e9)`.) -/
theorem claim10_monotone_in_end (s e1 e2 today : Time) (hs hs2 : List Time) (r : Report)
    (h1 : e1.before s = false) (h2 : e2.before e1 = false)
    (hn : 0 ≤ today.nsec) (h3 : mainReport today hs2 = Except.ok r) :
    (∃ n1 n2, calcBusinessDaysInRange s e1 hs = Except.ok n1 ∧
      calcBusinessDaysInRange s e2 hs = Except.ok n2 ∧ n1 ≤ n2) ∧
    0 ≤ r.businessDaysLeft := by
  constructor
  · have hb1 : ¬(e1.sec < s.sec ∨ (e1.sec = s.sec ∧ e1.nsec < s.nsec)) := by
      simpa [Time.before] using h1
    have hb2 : ¬(e2.sec < e1.sec ∨ (e2.sec = e1.sec ∧ e2.nsec < e1.nsec)) := by
      simpa [Time.before] using h2
    have he2s : e2.before s = false := by
      simp only [Time.before, decide_eq_false_iff_not]
      omega
    refine ⟨_, _, calc_spec s e1 hs h1, calc_spec s e2 hs he2s, ?_⟩
    have hiter : loopIters s e1 ≤ loopIters s e2 := by
      simp only [loopIters]
      split_ifs <;> omega
    exact specCount_mono s.days (s.days + loopIters s e1 - 1)
      (s.days + loopIters s e2 - 1) hs (by omega)
  · obtain ⟨p, t, hp, ht, hr⟩ := mainReport_cases today hs2 r h3
    subst hr
    show 0 ≤ t - p
    obtain ⟨hbsec, hbnsec, hbciv⟩ := beginningOfMonth_spec today
    obtain ⟨hesec, hensec, heciv⟩ := endOfMonth_spec today
    have hv := civil_valid today
    have hA := daysFromCivil_civil today
    have hclock : 0 ≤ today.sec % 86400 ∧ today.sec % 86400 < 86400 := by omega
    have hd1 : daysFromCivil today.year today.month 1 =
        today.sec / 86400 + 1 - today.day := by
      have hlin := daysFromCivil_day_add today.year today.month today.day (1 - today.day)
      have harg : today.day + (1 - today.day) = 1 := by ring
      rw [harg] at hlin
      omega
    have hdim : daysFromCivil today.year today.month (daysInMonth today.year today.month) =
        today.sec / 86400 + daysInMonth today.year today.month - today.day := by
      have hlin := daysFromCivil_day_add today.year today.month today.day
        (daysInMonth today.year today.month - today.day)
      have harg : today.day + (daysInMonth today.year today.month - today.day) =
          daysInMonth today.year today.month := by ring
      rw [harg] at hlin
      omega
    have hbf1 : today.before (beginningOfMonth today) = false := by
      simp only [Time.before, decide_eq_false_iff_not, hbsec, hbnsec, hd1]
      omega
    have hbf2 : (endOfMonth today).before (beginningOfMonth today) = false := by
      simp only [Time.before, decide_eq_false_iff_not, hbsec, hbnsec, hesec, hensec,
        hd1, hdim]
      omega
    rw [calc_spec _ _ _ hbf1] at hp
    rw [calc_spec _ _ _ hbf2] at ht
    injection hp with hp
    injection ht with ht
    have hiter : loopIters (beginningOfMonth today) today ≤
        loopIters (beginningOfMonth today) (endOfMonth today) := by
      simp only [loopIters, hbsec, hbnsec, hesec, hensec, hd1, hdim]
      split_ifs <;> omega
    have hmono := specCount_mono (beginningOfMonth today).days
      ((beginningOfMonth today).days + loopIters (beginningOfMonth today) today - 1)
      ((beginningOfMonth today).days + loopIters (beginningOfMonth today) (endOfMonth today) - 1)
      hs2 (by omega)
    omega

/-- C8: the printed report derives its values exactly as the specification
states: the index is `businessDaysPassed` (Range Counter over
month-start..today), the remaining days are `businessDaysTotal -
businessDaysPassed` (total from month-start..end-of-month), the remaining
hours are that difference times 8, and for a nonzero total the percentage
value is passed / total × 100 (the `%.1f` print formats this value to one
decimal place). -/
theorem claim8_report_formulas (today : Time) (hs : List Time) (r : Report)
    (h : mainReport today hs = Except.ok r) :
    ∃ p t, calcBusinessDaysInRange (beginningOfMonth today) today hs = Except.ok p ∧
      calcBusinessDaysInRange (beginningOfMonth today) (endOfMonth today) hs =
        Except.ok t ∧
      r.businessDayIndex = p ∧
      r.businessDaysLeft = t - p ∧
      r.remainingHours = r.businessDaysLeft * 8 ∧
      (t ≠ 0 → r.percentElapsed = some ((p : ℚ) / (t : ℚ) * 100)) := by
  obtain ⟨p, t, hp, ht, hr⟩ := mainReport_cases today hs r h
  subst hr
  refine ⟨p, t, hp, ht, rfl, rfl, rfl, ?_⟩
  intro h0
  show (if t = 0 then none else some ((p : ℚ) / (t : ℚ) * 100)) = _
  rw [if_neg h0]

set_option maxRecDepth 8192 in
/-- The range-counter results for 2025-01-15 with a New-Year holiday:
10 business days passed, 22 in the month. -/
theorem january_calc_passed :
    calcBusinessDaysInRange (beginningOfMonth (mkTime 2025 1 15 0 0 0 0))
      (mkTime 2025 1 15 0 0 0 0) [mkTime 2025 1 1 0 0 0 0] = Except.ok 10 := by
  rw [calc_spec _ _ _ (by decide)]
  simp only [Except.ok.injEq]
  decide

set_option maxRecDepth 8192 in
/-- The month total for January 2025 with a New-Year holiday. -/
theorem january_calc_total :
    calcBusinessDaysInRange (beginningOfMonth (mkTime 2025 1 15 0 0 0 0))
      (endOfMonth (mkTime 2025 1 15 0 0 0 0)) [mkTime 2025 1 1 0 0 0 0] =
      Except.ok 22 := by
  rw [calc_spec _ _ _ (by decide)]
  simp only [Except.ok.injEq]
  decide

/-- C8 witness: 2025-01-15 with the New-Year holiday. -/
theorem claim8_witness :
    mainReport (mkTime 2025 1 15 0 0 0 0) [mkTime 2025 1 1 0 0 0 0] = Except.ok
      { businessDayIndex := 10
        businessDaysLeft := 22 - 10
        remainingHours := (22 - 10) * 8
        percentElapsed := if (22 : ℤ) = 0 then none
          else some (((10 : ℤ) : ℚ) / ((22 : ℤ) : ℚ) * 100) } ∧
    ∃ p t, calcBusinessDaysInRange (beginningOfMonth (mkTime 2025 1 15 0 0 0 0))
        (mkTime 2025 1 15 0 0 0 0) [mkTime 2025 1 1 0 0 0 0] = Except.ok p ∧
      calcBusinessDaysInRange (beginningOfMonth (mkTime 2025 1 15 0 0 0 0))
        (endOfMonth (mkTime 2025 1 15 0 0 0 0)) [mkTime 2025 1 1 0 0 0 0] =
        Except.ok t ∧
      ({ businessDayIndex := 10
         businessDaysLeft := 22 - 10
         remainingHours := (22 - 10) * 8
         percentElapsed := if (22 : ℤ) = 0 then none
           else some (((10 : ℤ) : ℚ) / ((22 : ℤ) : ℚ) * 100) } : Report).businessDayIndex =
        p ∧
      ({ businessDayIndex := 10
         businessDaysLeft := 22 - 10
         remainingHours := (22 - 10) * 8
         percentElapsed := if (22 : ℤ) = 0 then none
           else some (((10 : ℤ) : ℚ) / ((22 : ℤ) : ℚ) * 100) } : Report).businessDaysLeft =
        t - p ∧
      ({ businessDayIndex := 10
         businessDaysLeft := 22 - 10
         remainingHours := (22 - 10) * 8
         percentElapsed := if (22 : ℤ) = 0 then none
           else some (((10 : ℤ) : ℚ) / ((22 : ℤ) : ℚ) * 100) } : Report).remainingHours =
        ({ businessDayIndex := 10
           businessDaysLeft := 22 - 10
           remainingHours := (22 - 10) * 8
           percentElapsed := if (22 : ℤ) = 0 then none
             else some (((10 : ℤ) : ℚ) / ((22 : ℤ) : ℚ) * 100) } : Report).businessDaysLeft *
          8 ∧
      (t ≠ 0 →
        ({ businessDayIndex := 10
           businessDaysLeft := 22 - 10
           remainingHours := (22 - 10) * 8
           percentElapsed := if (22 : ℤ) = 0 then none
             else some (((10 : ℤ) : ℚ) / ((22 : ℤ) : ℚ) * 100) } : Report).percentElapsed =
          some ((p : ℚ) / (t : ℚ) * 100)) :=
  ⟨mainReport_eq _ _ 10 22 january_calc_passed january_calc_total,
    claim8_report_formulas _ _ _
      (mainReport_eq _ _ 10 22 january_calc_passed january_calc_total)⟩

/-- C10 witness: January 2025 ranges and the 2025-01-15 report. -/
theorem claim10_witness :
    (∃ n1 n2, calcBusinessDaysInRange (mkTime 2025 1 1 0 0 0 0)
        (mkTime 2025 1 15 0 0 0 0) [] = Except.ok n1 ∧
      calcBusinessDaysInRange (mkTime 2025 1 1 0 0 0 0)
        (mkTime 2025 1 31 0 0 0 0) [] = Except.ok n2 ∧ n1 ≤ n2) ∧
    0 ≤ ({ businessDayIndex := 10
           businessDaysLeft := 22 - 10
           remainingHours := (22 - 10) * 8
           percentElapsed := if (22 : ℤ) = 0 then none
             else some (((10 : ℤ) : ℚ) / ((22 : ℤ) : ℚ) * 100) } : Report).businessDaysLeft :=
  claim10_monotone_in_end (mkTime 2025 1 1 0 0 0 0) (mkTime 2025 1 15 0 0 0 0)
    (mkTime 2025 1 31 0 0 0 0) (mkTime 2025 1 15 0 0 0 0) [] [mkTime 2025 1 1 0 0 0 0] _
    (by decide) (by decide) (by decide)
    (mainReport_eq _ _ 10 22 january_calc_passed january_calc_total)

set_option maxRecDepth 8192 in
/-- C2: when `businessDaysTotal` is zero the division in `main` is NOT
guarded.  With every day of June 2025 listed as a holiday, both counters
return 0, `main` does not exit with an error, and the percentage value is
the unguarded `float64` quotient `0 / 0` — a NaN (`percentElapsed = none`
in this model), printed as-is by the `%.1f` format, not an error report
and not `0 %`.  This contradicts the specified contract; the specification
itself flags the observed logic as producing a division fault
(design-notes open question). -/
theorem claim2_percentage_unguarded :
    calcBusinessDaysInRange (beginningOfMonth (mkTime 2025 6 15 0 0 0 0))
      (endOfMonth (mkTime 2025 6 15 0 0 0 0))
      ((List.range 30).map (fun i : ℕ => mkTime 2025 6 (1 + (i : ℤ)) 0 0 0 0)) =
      Except.ok 0 ∧
    mainReport (mkTime 2025 6 15 0 0 0 0)
      ((List.range 30).map (fun i : ℕ => mkTime 2025 6 (1 + (i : ℤ)) 0 0 0 0)) =
      Except.ok { businessDayIndex := 0
                  businessDaysLeft := 0
                  remainingHours := 0
                  percentElapsed := none } := by
  have hp : calcBusinessDaysInRange (beginningOfMonth (mkTime 2025 6 15 0 0 0 0))
      (mkTime 2025 6 15 0 0 0 0)
      ((List.range 30).map (fun i : ℕ => mkTime 2025 6 (1 + (i : ℤ)) 0 0 0 0)) =
      Except.ok 0 := by
    rw [calc_spec _ _ _ (by decide)]
    simp only [Except.ok.injEq]
    decide
  have ht : calcBusinessDaysInRange (beginningOfMonth (mkTime 2025 6 15 0 0 0 0))
      (endOfMonth (mkTime 2025 6 15 0 0 0 0))
      ((List.range 30).map (fun i : ℕ => mkTime 2025 6 (1 + (i : ℤ)) 0 0 0 0)) =
      Except.ok 0 := by
    rw [calc_spec _ _ _ (by decide)]
    simp only [Except.ok.injEq]
    decide
  refine ⟨ht, ?_⟩
  rw [mainReport_eq _ _ 0 0 hp ht]
  norm_num

/-- Success and failure of the holiday-entry parsing loop, by induction on
the entry list. -/
theorem parseHolidayList_cases (entries : List String) :
    ((∃ s ∈ entries, ∀ u, goParseDate s ≠ Except.ok u) →
      ∃ msg, parseHolidayList entries = Except.error msg) ∧
    ((∀ s ∈ entries, ∃ u, goParseDate s = Except.ok u) →
      ∃ ts, parseHolidayList entries = Except.ok ts) := by
  induction entries with
  | nil =>
    constructor
    · rintro ⟨s, hmem, _⟩
      exact absurd hmem (List.not_mem_nil s)
    · intro _
      exact ⟨[], rfl⟩
  | cons s rest ih =>
    constructor
    · rintro ⟨x, hxmem, hx⟩
      rcases List.mem_cons.mp hxmem with hxs | hxrest
      · subst hxs
        cases hgp : goParseDate x with
        | error msg =>
          exact ⟨"failed to parse holiday: " ++ x, by simp only [parseHolidayList, hgp]⟩
        | ok u => exact absurd hgp (hx u)
      · cases hgp : goParseDate s with
        | error msg =>
          exact ⟨"failed to parse holiday: " ++ s, by simp only [parseHolidayList, hgp]⟩
        | ok u =>
          obtain ⟨msg, hmsg⟩ := ih.1 ⟨x, hxrest, hx⟩
          exact ⟨msg, by simp only [parseHolidayList, hgp, hmsg]⟩
    · intro hall
      obtain ⟨u, hu⟩ := hall s (List.mem_cons_self s rest)
      obtain ⟨ts, hts⟩ := ih.2 (fun x hx => hall x (List.mem_cons_of_mem s hx))
      exact ⟨u :: ts, by simp only [parseHolidayList, hu, hts]⟩

/-- C6: the Holiday Loader fails when the embedded configuration is empty,
when the unmarshaller rejects the document, and when any entry is not a
valid `YYYY-MM-DD` date (in particular `"2025-13-01"` is rejected with a
month-out-of-range parse error, not read as some wrong date); when the
bytes are nonempty, the document unmarshals, and every entry parses, it
returns the holiday list without error. -/
theorem claim6_loadHolidays_errors (raw : List Char)
    (unmarshal : List Char → Except String (List String)) :
    (raw.length = 0 →
      loadHolidays raw unmarshal = Except.error "holidays.yaml is not embedded") ∧
    (∀ msg, raw.length ≠ 0 → unmarshal raw = Except.error msg →
      loadHolidays raw unmarshal = Except.error msg) ∧
    (∀ entries, raw.length ≠ 0 → unmarshal raw = Except.ok entries →
      ((∃ s ∈ entries, ∀ u, goParseDate s ≠ Except.ok u) →
        ∃ msg, loadHolidays raw unmarshal = Except.error msg) ∧
      ((∀ s ∈ entries, ∃ u, goParseDate s = Except.ok u) →
        ∃ ts, loadHolidays raw unmarshal = Except.ok ts)) ∧
    goParseDate "2025-13-01" = Except.error "month out of range" := by
  refine ⟨?_, ?_, ?_, by rfl⟩
  · intro h0
    simp only [loadHolidays, if_pos h0]
  · intro msg hne hum
    simp only [loadHolidays, if_neg hne, hum]
  · intro entries hne hum
    constructor
    · intro hex
      obtain ⟨msg, hmsg⟩ := (parseHolidayList_cases entries).1 hex
      exact ⟨msg, by simp only [loadHolidays, if_neg hne, hum, hmsg]⟩
    · intro hall
      obtain ⟨ts, hts⟩ := (parseHolidayList_cases entries).2 hall
      exact ⟨ts, by simp only [loadHolidays, if_neg hne, hum, hts]⟩

/-- C6 witness: the empty configuration is rejected. -/
theorem claim6_witness :
    loadHolidays [] (fun _ => Except.ok []) =
      Except.error "holidays.yaml is not embedded" :=
  (claim6_loadHolidays_errors [] (fun _ => Except.ok [])).1 rfl

/-- C3 witness: a regular one-day range returns a count without error. -/
theorem claim3_witness :
    (mkTime 2025 1 2 0 0 0 0).before (mkTime 2025 1 1 0 0 0 0) = false ∧
    ∃ n, calcBusinessDaysInRange (mkTime 2025 1 1 0 0 0 0)
      (mkTime 2025 1 2 0 0 0 0) [] = Except.ok n :=
  ⟨by decide, (claim3_error_iff_instant_precedes (mkTime 2025 1 1 0 0 0 0)
    (mkTime 2025 1 2 0 0 0 0) []).2 (by decide)⟩
